import Mathlib

/-!
Shallow embedding of `src/cdk-experimental/selection/selection-set.ts`.

The TypeScript class `SelectionSet<T>` keeps an insertion-ordered
`Map<T | ReturnType<TrackByFunction<T>>, SelectableWithIndex<T>>` and a
`changed` subject.  We model:

* the JavaScript `Map` as an association list that preserves insertion
  order (`mapSet` updates in place or appends, `mapDelete` removes,
  `mapValues` enumerates in order);
* the global `isDevMode()` flag as an explicit `devMode : Bool` argument;
* `throw Error(...)` as `Except SelError`;
* a `trackByFn : TrackByFunction<T>` as `Option Nat → T → K` so that the
  production-mode call `trackByFn(select.index!, value)` with an absent
  index (`undefined`) is the application to `none`;
* the immutable fields `_multiple` and `_trackByFn` as a `SelectionConfig`
  that is fixed across calls, while the mutable `_selectionMap` is threaded
  explicitly;
* `select` / `deselect` as run functions returning the call result, the
  final map (mutations performed before a throw persist, as in the source),
  and the list of events pushed on `changed` during the call.
-/

namespace SelectionModel

/-- `SelectableWithIndex<T>`: a value with an optional index. -/
structure SelectableWithIndex (T : Type) where
  value : T
  index : Option Nat
deriving DecidableEq, Repr

/-- `SelectionChange<T>`: the `{before, after}` payload of a change event. -/
structure SelectionChange (T : Type) where
  before : List (SelectableWithIndex T)
  after : List (SelectableWithIndex T)
deriving DecidableEq, Repr

/-- The two errors the source can throw, both guarded by `isDevMode()`. -/
inductive SelError where
  | multipleNotAllowed
  | missingIndex
deriving DecidableEq, Repr

/-- The constructor arguments `_multiple` and `_trackByFn`, never mutated. -/
structure SelectionConfig (T K : Type) where
  multiple : Bool
  trackByFn : Option (Option Nat → T → K)

/-- Key type of `_selectionMap`: `T | ReturnType<TrackByFunction<T>>`. -/
abbrev SelKey (T K : Type) := T ⊕ K

/-- The insertion-ordered `_selectionMap`, as an association list. -/
abbrev SelectionMap (T K : Type) := List (SelKey T K × SelectableWithIndex T)

variable {T K : Type} [DecidableEq T] [DecidableEq K]

/-- JavaScript `Map.prototype.has`. -/
def mapHas (m : SelectionMap T K) (k : SelKey T K) : Bool :=
  m.any (fun p => decide (p.1 = k))

/-- JavaScript `Map.prototype.set`: update in place if the key is present,
otherwise append at the end (insertion order is preserved). -/
def mapSet : SelectionMap T K → SelKey T K → SelectableWithIndex T → SelectionMap T K
  | [], k, v => [(k, v)]
  | p :: rest, k, v => if p.1 = k then (k, v) :: rest else p :: mapSet rest k v

/-- JavaScript `Map.prototype.delete`: remove the entry with the key,
preserving the relative order of the rest. -/
def mapDelete (m : SelectionMap T K) (k : SelKey T K) : SelectionMap T K :=
  m.filter (fun p => decide (p.1 ≠ k))

/-- JavaScript `Map.prototype.values`, in insertion order. -/
def mapValues (m : SelectionMap T K) : List (SelectableWithIndex T) :=
  m.map Prod.snd

namespace SelectionSet

/-- `SelectionSet._getTrackedByValue`: with no `trackByFn` the key is the
value itself; with a `trackByFn`, dev mode throws when the index is absent,
otherwise the function is applied to the (possibly absent) index. -/
def getTrackedByValue (cfg : SelectionConfig T K) (devMode : Bool)
    (s : SelectableWithIndex T) : Except SelError (SelKey T K) :=
  match cfg.trackByFn with
  | none => .ok (.inl s.value)
  | some fn =>
      if s.index = none ∧ devMode = true then .error .missingIndex
      else .ok (.inr (fn s.index s.value))

/-- `SelectionSet.isSelected`: membership of the derived key in the map. -/
def isSelected (cfg : SelectionConfig T K) (devMode : Bool)
    (m : SelectionMap T K) (s : SelectableWithIndex T) : Except SelError Bool :=
  match getTrackedByValue cfg devMode s with
  | .error e => .error e
  | .ok k => .ok (mapHas m k)

/-- The `for (const select of selects)` loop of `SelectionSet.select`:
skip entries already selected, insert the others under their derived key.
A throw inside the loop keeps the mutations already performed. -/
def selectLoop (cfg : SelectionConfig T K) (devMode : Bool) :
    SelectionMap T K → List (SelectableWithIndex T) →
    Except SelError Unit × SelectionMap T K
  | m, [] => (.ok (), m)
  | m, s :: rest =>
    match isSelected cfg devMode m s with
    | .error e => (.error e, m)
    | .ok true => selectLoop cfg devMode m rest
    | .ok false =>
      match getTrackedByValue cfg devMode s with
      | .error e => (.error e, m)
      | .ok k => selectLoop cfg devMode (mapSet m k s) rest

/-- `SelectionSet.select`: dev-mode guard against multiple entries in
single mode, snapshot `before`, clear the map in single mode, run the
insertion loop, snapshot `after`, and emit `{before, after}` on `changed`.
Returns (call result, final map, events emitted by this call). -/
def select (cfg : SelectionConfig T K) (devMode : Bool) (m : SelectionMap T K)
    (selects : List (SelectableWithIndex T)) :
    Except SelError Unit × SelectionMap T K × List (SelectionChange T) :=
  if cfg.multiple = false ∧ 1 < selects.length ∧ devMode = true then
    (.error .multipleNotAllowed, m, [])
  else
    match selectLoop cfg devMode (if cfg.multiple = false then [] else m) selects with
    | (.error e, m2) => (.error e, m2, [])
    | (.ok _, m2) => (.ok (), m2, [⟨mapValues m, mapValues m2⟩])

/-- The `for (const select of selects)` loop of `SelectionSet.deselect`:
skip entries not selected, delete the others by their derived key. -/
def deselectLoop (cfg : SelectionConfig T K) (devMode : Bool) :
    SelectionMap T K → List (SelectableWithIndex T) →
    Except SelError Unit × SelectionMap T K
  | m, [] => (.ok (), m)
  | m, s :: rest =>
    match isSelected cfg devMode m s with
    | .error e => (.error e, m)
    | .ok false => deselectLoop cfg devMode m rest
    | .ok true =>
      match getTrackedByValue cfg devMode s with
      | .error e => (.error e, m)
      | .ok k => deselectLoop cfg devMode (mapDelete m k) rest

/-- `SelectionSet.deselect`: dev-mode guard, snapshot `before`, run the
deletion loop, snapshot `after`, and emit `{before, after}` on `changed`. -/
def deselect (cfg : SelectionConfig T K) (devMode : Bool) (m : SelectionMap T K)
    (selects : List (SelectableWithIndex T)) :
    Except SelError Unit × SelectionMap T K × List (SelectionChange T) :=
  if cfg.multiple = false ∧ 1 < selects.length ∧ devMode = true then
    (.error .multipleNotAllowed, m, [])
  else
    match deselectLoop cfg devMode m selects with
    | (.error e, m2) => (.error e, m2, [])
    | (.ok _, m2) => (.ok (), m2, [⟨mapValues m, mapValues m2⟩])

end SelectionSet

/-- A public mutating call on the set: `select(...)` or `deselect(...)`. -/
inductive SelOp (T : Type) where
  | sel (entries : List (SelectableWithIndex T))
  | desel (entries : List (SelectableWithIndex T))

/-- The map after one call (throws keep the mutations already made). -/
def applyOp (cfg : SelectionConfig T K) (devMode : Bool)
    (m : SelectionMap T K) : SelOp T → SelectionMap T K
  | .sel es => (SelectionSet.select cfg devMode m es).2.1
  | .desel es => (SelectionSet.deselect cfg devMode m es).2.1

/-- The map after a sequence of calls starting from map `m`. -/
def applyOps (cfg : SelectionConfig T K) (devMode : Bool)
    (m : SelectionMap T K) (ops : List (SelOp T)) : SelectionMap T K :=
  ops.foldl (applyOp cfg devMode) m

end SelectionModel

namespace SelectionModel

variable {T K : Type} [DecidableEq T] [DecidableEq K]

lemma mapHas_mapSet_self (m : SelectionMap T K) (k : SelKey T K)
    (v : SelectableWithIndex T) : mapHas (mapSet m k v) k = true := by
  induction m with
  | nil => simp [mapSet, mapHas]
  | cons p rest ih =>
      by_cases h : p.1 = k
      · simp [mapSet, h, mapHas]
      · simp only [mapSet, if_neg h]
        simpa [mapHas, h] using ih

lemma length_mapSet_le (m : SelectionMap T K) (k : SelKey T K)
    (v : SelectableWithIndex T) : (mapSet m k v).length ≤ m.length + 1 := by
  induction m with
  | nil => simp [mapSet]
  | cons p rest ih =>
      by_cases h : p.1 = k
      · simp [mapSet, h]
      · simp only [mapSet, if_neg h, List.length_cons]
        omega

lemma length_mapDelete_le (m : SelectionMap T K) (k : SelKey T K) :
    (mapDelete m k).length ≤ m.length :=
  List.length_filter_le _ m

lemma selectLoop_snd_length (cfg : SelectionConfig T K) (devMode : Bool)
    (sels : List (SelectableWithIndex T)) : ∀ m : SelectionMap T K,
    (SelectionSet.selectLoop cfg devMode m sels).2.length ≤ m.length + sels.length := by
  induction sels with
  | nil => intro m; simp [SelectionSet.selectLoop]
  | cons s rest ih =>
      intro m
      simp only [SelectionSet.selectLoop]
      split
      · simp
      · refine le_trans (ih m) ?_
        simp only [List.length_cons]
        omega
      · split
        · simp
        · rename_i k _
          refine le_trans (ih _) ?_
          have := length_mapSet_le m k s
          simp only [List.length_cons]
          omega

lemma deselectLoop_snd_length (cfg : SelectionConfig T K) (devMode : Bool)
    (sels : List (SelectableWithIndex T)) : ∀ m : SelectionMap T K,
    (SelectionSet.deselectLoop cfg devMode m sels).2.length ≤ m.length := by
  induction sels with
  | nil => intro m; simp [SelectionSet.deselectLoop]
  | cons s rest ih =>
      intro m
      simp only [SelectionSet.deselectLoop]
      split
      · simp
      · exact ih m
      · split
        · simp
        · rename_i k _
          exact le_trans (ih _) (length_mapDelete_le m k)

lemma getTrackedByValue_ok_of_optimized (cfg : SelectionConfig T K)
    (s : SelectableWithIndex T) :
    ∃ k, SelectionSet.getTrackedByValue cfg false s = .ok k := by
  cases hfn : cfg.trackByFn <;> simp [SelectionSet.getTrackedByValue, hfn]

lemma selectLoop_fst_ok (cfg : SelectionConfig T K)
    (sels : List (SelectableWithIndex T)) : ∀ m : SelectionMap T K,
    (SelectionSet.selectLoop cfg false m sels).1 = .ok () := by
  induction sels with
  | nil => intro m; rfl
  | cons s rest ih =>
      intro m
      obtain ⟨k, hk⟩ := getTrackedByValue_ok_of_optimized cfg s
      simp only [SelectionSet.selectLoop, SelectionSet.isSelected, hk]
      cases hb : mapHas m k <;> simp [hb, ih]

lemma deselectLoop_fst_ok (cfg : SelectionConfig T K)
    (sels : List (SelectableWithIndex T)) : ∀ m : SelectionMap T K,
    (SelectionSet.deselectLoop cfg false m sels).1 = .ok () := by
  induction sels with
  | nil => intro m; rfl
  | cons s rest ih =>
      intro m
      obtain ⟨k, hk⟩ := getTrackedByValue_ok_of_optimized cfg s
      simp only [SelectionSet.deselectLoop, SelectionSet.isSelected, hk]
      cases hb : mapHas m k <;> simp [hb, ih]

end SelectionModel

namespace SelectionModel

variable {T K : Type} [DecidableEq T] [DecidableEq K]

lemma select_eq_of_loop (cfg : SelectionConfig T K) (devMode : Bool)
    (m : SelectionMap T K) (sels : List (SelectableWithIndex T))
    (m1 : SelectionMap T K)
    (hguard : ¬(cfg.multiple = false ∧ 1 < sels.length ∧ devMode = true))
    (hloop : SelectionSet.selectLoop cfg devMode
      (if cfg.multiple = false then [] else m) sels = (.ok (), m1)) :
    SelectionSet.select cfg devMode m sels =
      (.ok (), m1, [⟨mapValues m, mapValues m1⟩]) := by
  unfold SelectionSet.select
  rw [if_neg hguard, hloop]

lemma select_eq_ok_elim (cfg : SelectionConfig T K) (devMode : Bool)
    (m : SelectionMap T K) (sels : List (SelectableWithIndex T))
    (m1 : SelectionMap T K) (evs : List (SelectionChange T))
    (h : SelectionSet.select cfg devMode m sels = (.ok (), m1, evs)) :
    SelectionSet.selectLoop cfg devMode
      (if cfg.multiple = false then [] else m) sels = (.ok (), m1) ∧
    evs = [⟨mapValues m, mapValues m1⟩] := by
  unfold SelectionSet.select at h
  split at h
  · simp at h
  · rcases hl : SelectionSet.selectLoop cfg devMode
      (if cfg.multiple = false then [] else m) sels with ⟨r, mz⟩
    rw [hl] at h
    cases r with
    | error e => simp at h
    | ok u =>
        cases u
        simp only [Prod.mk.injEq] at h
        obtain ⟨-, hm1, hevs⟩ := h
        subst hm1
        exact ⟨rfl, hevs.symm⟩

lemma deselect_eq_of_loop (cfg : SelectionConfig T K) (devMode : Bool)
    (m : SelectionMap T K) (sels : List (SelectableWithIndex T))
    (m1 : SelectionMap T K)
    (hguard : ¬(cfg.multiple = false ∧ 1 < sels.length ∧ devMode = true))
    (hloop : SelectionSet.deselectLoop cfg devMode m sels = (.ok (), m1)) :
    SelectionSet.deselect cfg devMode m sels =
      (.ok (), m1, [⟨mapValues m, mapValues m1⟩]) := by
  unfold SelectionSet.deselect
  rw [if_neg hguard, hloop]

lemma deselect_eq_ok_elim (cfg : SelectionConfig T K) (devMode : Bool)
    (m : SelectionMap T K) (sels : List (SelectableWithIndex T))
    (m1 : SelectionMap T K) (evs : List (SelectionChange T))
    (h : SelectionSet.deselect cfg devMode m sels = (.ok (), m1, evs)) :
    SelectionSet.deselectLoop cfg devMode m sels = (.ok (), m1) ∧
    evs = [⟨mapValues m, mapValues m1⟩] := by
  unfold SelectionSet.deselect at h
  split at h
  · simp at h
  · rcases hl : SelectionSet.deselectLoop cfg devMode m sels with ⟨r, mz⟩
    rw [hl] at h
    cases r with
    | error e => simp at h
    | ok u =>
        cases u
        simp only [Prod.mk.injEq] at h
        obtain ⟨-, hm1, hevs⟩ := h
        subst hm1
        exact ⟨rfl, hevs.symm⟩

lemma select_fst_ok_of_optimized (cfg : SelectionConfig T K)
    (m : SelectionMap T K) (sels : List (SelectableWithIndex T)) :
    (SelectionSet.select cfg false m sels).1 = .ok () := by
  unfold SelectionSet.select
  rw [if_neg (by simp)]
  have hr := selectLoop_fst_ok cfg sels (if cfg.multiple = false then [] else m)
  rcases hl : SelectionSet.selectLoop cfg false
    (if cfg.multiple = false then [] else m) sels with ⟨r, mz⟩
  rw [hl] at hr
  cases r with
  | error e => simp at hr
  | ok u => rfl

lemma deselect_fst_ok_of_optimized (cfg : SelectionConfig T K)
    (m : SelectionMap T K) (sels : List (SelectableWithIndex T)) :
    (SelectionSet.deselect cfg false m sels).1 = .ok () := by
  unfold SelectionSet.deselect
  rw [if_neg (by simp)]
  have hr := deselectLoop_fst_ok cfg sels m
  rcases hl : SelectionSet.deselectLoop cfg false m sels with ⟨r, mz⟩
  rw [hl] at hr
  cases r with
  | error e => simp at hr
  | ok u => rfl

end SelectionModel

namespace SelectionModel

variable {T K : Type} [DecidableEq T] [DecidableEq K]

lemma getTrackedByValue_some (cfg : SelectionConfig T K) (devMode : Bool)
    (s : SelectableWithIndex T) (fn : Option Nat → T → K)
    (hfn : cfg.trackByFn = some fn) :
    SelectionSet.getTrackedByValue cfg devMode s =
      if s.index = none ∧ devMode = true then .error .missingIndex
      else .ok (.inr (fn s.index s.value)) := by
  unfold SelectionSet.getTrackedByValue
  rw [hfn]

/-- C9: with the diagnostic flag on, a `select` or `deselect` call that
passes more than one entry in single mode fails with `multipleNotAllowed`,
leaves the selection map exactly as it was, and emits no change event. -/
theorem guard_error_before_mutation (cfg : SelectionConfig T K)
    (devMode : Bool) (m : SelectionMap T K) (sels : List (SelectableWithIndex T))
    (hmul : cfg.multiple = false) (hlen : 1 < sels.length) (hdev : devMode = true) :
    SelectionSet.select cfg devMode m sels = (.error .multipleNotAllowed, m, []) ∧
    SelectionSet.deselect cfg devMode m sels = (.error .multipleNotAllowed, m, []) := by
  refine ⟨?_, ?_⟩
  · unfold SelectionSet.select
    rw [if_pos ⟨hmul, hlen, hdev⟩]
  · unfold SelectionSet.deselect
    rw [if_pos ⟨hmul, hlen, hdev⟩]

/-- Witness for C9 at a concrete single-mode set holding one entry. -/
theorem guard_error_before_mutation_witness :
    SelectionSet.select (⟨false, none⟩ : SelectionConfig Nat Nat) true
        [(Sum.inl 5, ⟨5, none⟩)] [⟨1, none⟩, ⟨2, none⟩] =
      (.error .multipleNotAllowed, [(Sum.inl 5, ⟨5, none⟩)], []) ∧
    SelectionSet.deselect (⟨false, none⟩ : SelectionConfig Nat Nat) true
        [(Sum.inl 5, ⟨5, none⟩)] [⟨1, none⟩, ⟨2, none⟩] =
      (.error .multipleNotAllowed, [(Sum.inl 5, ⟨5, none⟩)], []) :=
  guard_error_before_mutation _ _ _ _ rfl (by decide) rfl

/-- C10: `select()` with zero entries clears the map in single mode (with
`before` the prior entries and `after` empty) and leaves it unchanged in
multiple mode; either way exactly one change event is emitted. -/
theorem select_empty_behavior (cfg : SelectionConfig T K) (devMode : Bool)
    (m : SelectionMap T K) :
    (cfg.multiple = false →
      SelectionSet.select cfg devMode m [] = (.ok (), [], [⟨mapValues m, []⟩])) ∧
    (cfg.multiple = true →
      SelectionSet.select cfg devMode m [] =
        (.ok (), m, [⟨mapValues m, mapValues m⟩])) := by
  constructor
  · intro hmul
    exact select_eq_of_loop cfg devMode m [] [] (by simp) (by rw [hmul]; rfl)
  · intro hmul
    exact select_eq_of_loop cfg devMode m [] m (by simp [hmul]) (by rw [hmul]; rfl)

/-- Witness for C10: emptying a single-mode set holding the entry 7. -/
theorem select_empty_behavior_witness :
    SelectionSet.select (⟨false, none⟩ : SelectionConfig Nat Nat) false
        [(Sum.inl 7, ⟨7, none⟩)] [] =
      (.ok (), [], [⟨[⟨7, none⟩], []⟩]) :=
  (select_empty_behavior _ _ _).1 rfl

/-- C4: in single mode a call with more than one entry raises
`multipleNotAllowed` exactly when the diagnostic flag is on; with the flag
off the same call completes normally. -/
theorem multiple_not_allowed_iff_devmode (cfg : SelectionConfig T K)
    (devMode : Bool) (m : SelectionMap T K) (sels : List (SelectableWithIndex T))
    (hmul : cfg.multiple = false) (hlen : 1 < sels.length) :
    ((SelectionSet.select cfg devMode m sels).1 = .error .multipleNotAllowed ↔
      devMode = true) ∧
    (devMode = false → (SelectionSet.select cfg devMode m sels).1 = .ok ()) ∧
    ((SelectionSet.deselect cfg devMode m sels).1 = .error .multipleNotAllowed ↔
      devMode = true) ∧
    (devMode = false → (SelectionSet.deselect cfg devMode m sels).1 = .ok ()) := by
  cases devMode
  · have hs := select_fst_ok_of_optimized cfg m sels
    have hd := deselect_fst_ok_of_optimized cfg m sels
    exact ⟨by simp [hs], fun _ => hs, by simp [hd], fun _ => hd⟩
  · have hs : (SelectionSet.select cfg true m sels).1 = .error .multipleNotAllowed := by
      unfold SelectionSet.select
      rw [if_pos ⟨hmul, hlen, rfl⟩]
    have hd : (SelectionSet.deselect cfg true m sels).1 = .error .multipleNotAllowed := by
      unfold SelectionSet.deselect
      rw [if_pos ⟨hmul, hlen, rfl⟩]
    exact ⟨by simp [hs], by simp, by simp [hd], by simp⟩

/-- Witness for C4 in optimized mode: the two-entry call does not raise. -/
theorem multiple_not_allowed_iff_devmode_witness :
    ((SelectionSet.select (⟨false, none⟩ : SelectionConfig Nat Nat) false []
        [⟨1, none⟩, ⟨2, none⟩]).1 = .error .multipleNotAllowed ↔ false = true) ∧
    (false = false →
      (SelectionSet.select (⟨false, none⟩ : SelectionConfig Nat Nat) false []
        [⟨1, none⟩, ⟨2, none⟩]).1 = .ok ()) ∧
    ((SelectionSet.deselect (⟨false, none⟩ : SelectionConfig Nat Nat) false []
        [⟨1, none⟩, ⟨2, none⟩]).1 = .error .multipleNotAllowed ↔ false = true) ∧
    (false = false →
      (SelectionSet.deselect (⟨false, none⟩ : SelectionConfig Nat Nat) false []
        [⟨1, none⟩, ⟨2, none⟩]).1 = .ok ()) :=
  multiple_not_allowed_iff_devmode _ _ _ _ rfl (by decide)

/-- C5: with a key function configured, key derivation fails with
`missingIndex` exactly when the index is absent and the diagnostic flag is
on; with the flag off and the index absent the key function is applied to
the absent index. -/
theorem missing_index_iff_devmode (cfg : SelectionConfig T K) (devMode : Bool)
    (m : SelectionMap T K) (s : SelectableWithIndex T)
    (fn : Option Nat → T → K) (hfn : cfg.trackByFn = some fn) :
    (SelectionSet.getTrackedByValue cfg devMode s = .error .missingIndex ↔
      (s.index = none ∧ devMode = true)) ∧
    (SelectionSet.isSelected cfg devMode m s = .error .missingIndex ↔
      (s.index = none ∧ devMode = true)) ∧
    (devMode = false → s.index = none →
      SelectionSet.getTrackedByValue cfg devMode s = .ok (.inr (fn none s.value))) := by
  have hg := getTrackedByValue_some cfg devMode s fn hfn
  cases devMode
  · rw [if_neg (by simp)] at hg
    refine ⟨by simp [hg], by simp [SelectionSet.isSelected, hg], ?_⟩
    intro _ hidx
    rw [hg, hidx]
  · by_cases hidx : s.index = none
    · rw [if_pos ⟨hidx, rfl⟩] at hg
      exact ⟨by simp [hg, hidx], by simp [SelectionSet.isSelected, hg, hidx], by simp⟩
    · rw [if_neg (by simp [hidx])] at hg
      exact ⟨by simp [hg, hidx], by simp [SelectionSet.isSelected, hg, hidx], by simp⟩

/-- Witness for C5: key function `v + 1`, absent index, flag off. -/
theorem missing_index_iff_devmode_witness :
    SelectionSet.getTrackedByValue
        (⟨false, some (fun _ v => v + 1)⟩ : SelectionConfig Nat Nat) false
        ⟨3, none⟩ = .ok (.inr 4) :=
  (missing_index_iff_devmode _ false [] ⟨3, none⟩ (fun _ v => v + 1) rfl).2.2 rfl rfl

/-- C8: deselecting an entry whose derived key is not in the map leaves the
map unchanged and still emits one change event with equal before and after
snapshots. -/
theorem deselect_absent_noop (cfg : SelectionConfig T K) (devMode : Bool)
    (m : SelectionMap T K) (x : SelectableWithIndex T) (k : SelKey T K)
    (hx : SelectionSet.getTrackedByValue cfg devMode x = .ok k)
    (hk : mapHas m k = false) :
    SelectionSet.deselect cfg devMode m [x] =
      (.ok (), m, [⟨mapValues m, mapValues m⟩]) := by
  apply deselect_eq_of_loop _ _ _ _ _ (by simp)
  simp only [SelectionSet.deselectLoop, SelectionSet.isSelected, hx, hk]

/-- Witness for C8: deselecting 2 from a set that only holds 1. -/
theorem deselect_absent_noop_witness :
    SelectionSet.deselect (⟨true, none⟩ : SelectionConfig Nat Nat) false
        [(Sum.inl 1, ⟨1, none⟩)] [⟨2, none⟩] =
      (.ok (), [(Sum.inl 1, ⟨1, none⟩)], [⟨[⟨1, none⟩], [⟨1, none⟩]⟩]) :=
  deselect_absent_noop _ _ _ _ (Sum.inl 2) rfl (by decide)

/-- C2: every `select` and every `deselect` call that returns normally
emits exactly one change event, whose `before` is the snapshot at call
entry and whose `after` is the snapshot after mutation. -/
theorem calls_emit_single_event (cfg : SelectionConfig T K) (devMode : Bool)
    (m ms md : SelectionMap T K) (sels sds : List (SelectableWithIndex T))
    (evs evd : List (SelectionChange T))
    (hs : SelectionSet.select cfg devMode m sels = (.ok (), ms, evs))
    (hd : SelectionSet.deselect cfg devMode m sds = (.ok (), md, evd)) :
    evs = [⟨mapValues m, mapValues ms⟩] ∧ evd = [⟨mapValues m, mapValues md⟩] :=
  ⟨(select_eq_ok_elim _ _ _ _ _ _ hs).2, (deselect_eq_ok_elim _ _ _ _ _ _ hd).2⟩

/-- Witness for C2: a no-op re-selection and a no-op deselection from a
concrete one-entry multi-mode set each emit exactly one event. -/
theorem calls_emit_single_event_witness :
    ([⟨[⟨1, none⟩], [⟨1, none⟩]⟩] : List (SelectionChange Nat)) =
      [⟨[⟨1, none⟩], [⟨1, none⟩]⟩] ∧
    ([⟨[⟨1, none⟩], [⟨1, none⟩]⟩] : List (SelectionChange Nat)) =
      [⟨[⟨1, none⟩], [⟨1, none⟩]⟩] :=
  calls_emit_single_event (⟨true, none⟩ : SelectionConfig Nat Nat) false
    [(Sum.inl 1, ⟨1, none⟩)] [(Sum.inl 1, ⟨1, none⟩)] [(Sum.inl 1, ⟨1, none⟩)]
    [⟨1, none⟩] [⟨2, none⟩] _ _ rfl rfl

end SelectionModel

namespace SelectionModel

variable {T K : Type} [DecidableEq T] [DecidableEq K]

/-- C3: in single mode, selecting `a` and then `b` (distinct derived keys)
leaves exactly the one entry `b` selected: `isSelected a` is false,
`isSelected b` is true, and the map holds one entry. -/
theorem single_mode_replacement (cfg : SelectionConfig T K) (devMode : Bool)
    (m : SelectionMap T K) (a b : SelectableWithIndex T) (ka kb : SelKey T K)
    (hmul : cfg.multiple = false)
    (ha : SelectionSet.getTrackedByValue cfg devMode a = .ok ka)
    (hb : SelectionSet.getTrackedByValue cfg devMode b = .ok kb)
    (hab : ka ≠ kb) :
    SelectionSet.select cfg devMode m [a] =
      (.ok (), [(ka, a)], [⟨mapValues m, [a]⟩]) ∧
    SelectionSet.select cfg devMode [(ka, a)] [b] =
      (.ok (), [(kb, b)], [⟨[a], [b]⟩]) ∧
    SelectionSet.isSelected cfg devMode [(kb, b)] a = .ok false ∧
    SelectionSet.isSelected cfg devMode [(kb, b)] b = .ok true ∧
    ([(kb, b)] : SelectionMap T K).length = 1 := by
  refine ⟨?_, ?_, ?_, ?_, rfl⟩
  · exact select_eq_of_loop cfg devMode m [a] [(ka, a)] (by simp)
      (by simp [hmul, SelectionSet.selectLoop, SelectionSet.isSelected, ha,
        mapHas, mapSet])
  · exact select_eq_of_loop cfg devMode [(ka, a)] [b] [(kb, b)] (by simp)
      (by simp [hmul, SelectionSet.selectLoop, SelectionSet.isSelected, hb,
        mapHas, mapSet])
  · simp [SelectionSet.isSelected, ha, mapHas, Ne.symm hab]
  · simp [SelectionSet.isSelected, hb, mapHas]

/-- Witness for C3 with values 1 and 2 in a single-mode set. -/
theorem single_mode_replacement_witness :
    SelectionSet.select (⟨false, none⟩ : SelectionConfig Nat Nat) false []
        [⟨1, none⟩] =
      (.ok (), [(Sum.inl 1, ⟨1, none⟩)], [⟨[], [⟨1, none⟩]⟩]) ∧
    SelectionSet.select (⟨false, none⟩ : SelectionConfig Nat Nat) false
        [(Sum.inl 1, ⟨1, none⟩)] [⟨2, none⟩] =
      (.ok (), [(Sum.inl 2, ⟨2, none⟩)], [⟨[⟨1, none⟩], [⟨2, none⟩]⟩]) ∧
    SelectionSet.isSelected (⟨false, none⟩ : SelectionConfig Nat Nat) false
      [(Sum.inl 2, ⟨2, none⟩)] ⟨1, none⟩ = .ok false ∧
    SelectionSet.isSelected (⟨false, none⟩ : SelectionConfig Nat Nat) false
      [(Sum.inl 2, ⟨2, none⟩)] ⟨2, none⟩ = .ok true ∧
    ([(Sum.inl 2, ⟨2, none⟩)] : SelectionMap Nat Nat).length = 1 :=
  single_mode_replacement _ _ _ _ _ _ _ rfl rfl rfl (by decide)

/-- C6: re-selecting the same entry leaves the map exactly as after the
first call, and the second call still emits one event whose before and
after snapshots are identical. -/
theorem idempotent_reselect (cfg : SelectionConfig T K) (devMode : Bool)
    (m m1 : SelectionMap T K) (a : SelectableWithIndex T)
    (evs : List (SelectionChange T))
    (h : SelectionSet.select cfg devMode m [a] = (.ok (), m1, evs)) :
    SelectionSet.select cfg devMode m1 [a] =
      (.ok (), m1, [⟨mapValues m1, mapValues m1⟩]) := by
  obtain ⟨hloop, -⟩ := select_eq_ok_elim _ _ _ _ _ _ h
  rcases hka : SelectionSet.getTrackedByValue cfg devMode a with e | ka
  · simp only [SelectionSet.selectLoop, SelectionSet.isSelected, hka] at hloop
    simp at hloop
  · have hstep : ∀ mm : SelectionMap T K,
        SelectionSet.selectLoop cfg devMode mm [a] =
          (.ok (), if mapHas mm ka = true then mm else mapSet mm ka a) := by
      intro mm
      simp only [SelectionSet.selectLoop, SelectionSet.isSelected, hka]
      cases hbb : mapHas mm ka <;> simp [SelectionSet.selectLoop, hbb]
    cases hmul : cfg.multiple
    · rw [hmul] at hloop
      have h0 : SelectionSet.selectLoop cfg devMode [] [a] = (.ok (), m1) := by
        simpa using hloop
      apply select_eq_of_loop _ _ _ _ _ (by simp)
      rw [hmul]
      simpa using h0
    · have h0 : SelectionSet.selectLoop cfg devMode m [a] = (.ok (), m1) := by
        rw [hmul] at hloop
        simpa using hloop
      rw [hstep m] at h0
      have hm1 : (if mapHas m ka = true then m else mapSet m ka a) = m1 := by
        simpa using h0
      apply select_eq_of_loop _ _ _ _ _ (by simp)
      rw [hmul]
      have hred : (if (true : Bool) = false then ([] : SelectionMap T K) else m1) = m1 := by
        simp
      rw [hred, hstep m1]
      have hhas : mapHas m1 ka = true := by
        cases hbb : mapHas m ka
        · rw [hbb] at hm1
          simp at hm1
          rw [← hm1]
          exact mapHas_mapSet_self m ka a
        · rw [hbb] at hm1
          simp at hm1
          rw [← hm1]
          exact hbb
      rw [hhas]
      simp

/-- Witness for C6: selecting 1 twice in a single-mode set. -/
theorem idempotent_reselect_witness :
    SelectionSet.select (⟨false, none⟩ : SelectionConfig Nat Nat) false
        [(Sum.inl 1, ⟨1, none⟩)] [⟨1, none⟩] =
      (.ok (), [(Sum.inl 1, ⟨1, none⟩)], [⟨[⟨1, none⟩], [⟨1, none⟩]⟩]) :=
  idempotent_reselect (⟨false, none⟩ : SelectionConfig Nat Nat) false []
    [(Sum.inl 1, ⟨1, none⟩)] ⟨1, none⟩ [⟨[], [⟨1, none⟩]⟩] rfl

/-- C7: in multiple mode, selecting `a`, `b`, `c` (distinct keys) one call
at a time yields the snapshots `[a]`, `[a, b]`, `[a, b, c]` in insertion
order, and deselecting `b` afterwards yields `[a, c]`. -/
theorem order_preservation (cfg : SelectionConfig T K) (devMode : Bool)
    (a b c : SelectableWithIndex T) (ka kb kc : SelKey T K)
    (hmul : cfg.multiple = true)
    (ha : SelectionSet.getTrackedByValue cfg devMode a = .ok ka)
    (hb : SelectionSet.getTrackedByValue cfg devMode b = .ok kb)
    (hc : SelectionSet.getTrackedByValue cfg devMode c = .ok kc)
    (hab : ka ≠ kb) (hac : ka ≠ kc) (hbc : kb ≠ kc) :
    SelectionSet.select cfg devMode [] [a] =
      (.ok (), [(ka, a)], [⟨[], [a]⟩]) ∧
    SelectionSet.select cfg devMode [(ka, a)] [b] =
      (.ok (), [(ka, a), (kb, b)], [⟨[a], [a, b]⟩]) ∧
    SelectionSet.select cfg devMode [(ka, a), (kb, b)] [c] =
      (.ok (), [(ka, a), (kb, b), (kc, c)], [⟨[a, b], [a, b, c]⟩]) ∧
    SelectionSet.deselect cfg devMode [(ka, a), (kb, b), (kc, c)] [b] =
      (.ok (), [(ka, a), (kc, c)], [⟨[a, b, c], [a, c]⟩]) := by
  refine ⟨?_, ?_, ?_, ?_⟩
  · exact select_eq_of_loop cfg devMode [] [a] [(ka, a)] (by simp [hmul])
      (by simp [hmul, SelectionSet.selectLoop, SelectionSet.isSelected, ha,
        mapHas, mapSet])
  · exact select_eq_of_loop cfg devMode [(ka, a)] [b] [(ka, a), (kb, b)]
      (by simp [hmul])
      (by simp [hmul, SelectionSet.selectLoop, SelectionSet.isSelected, hb,
        mapHas, mapSet, hab])
  · exact select_eq_of_loop cfg devMode [(ka, a), (kb, b)] [c]
      [(ka, a), (kb, b), (kc, c)] (by simp [hmul])
      (by simp [hmul, SelectionSet.selectLoop, SelectionSet.isSelected, hc,
        mapHas, mapSet, hac, hbc])
  · exact deselect_eq_of_loop cfg devMode [(ka, a), (kb, b), (kc, c)] [b]
      [(ka, a), (kc, c)] (by simp [hmul])
      (by simp [SelectionSet.deselectLoop, SelectionSet.isSelected, hb,
        mapHas, mapDelete, hab, Ne.symm hbc])

/-- Witness for C7 with values 1, 2, 3 in a multi-mode set. -/
theorem order_preservation_witness :
    SelectionSet.select (⟨true, none⟩ : SelectionConfig Nat Nat) false [] [⟨1, none⟩] =
      (.ok (), [(Sum.inl 1, ⟨1, none⟩)], [⟨[], [⟨1, none⟩]⟩]) ∧
    SelectionSet.select (⟨true, none⟩ : SelectionConfig Nat Nat) false
        [(Sum.inl 1, ⟨1, none⟩)] [⟨2, none⟩] =
      (.ok (), [(Sum.inl 1, ⟨1, none⟩), (Sum.inl 2, ⟨2, none⟩)],
       [⟨[⟨1, none⟩], [⟨1, none⟩, ⟨2, none⟩]⟩]) ∧
    SelectionSet.select (⟨true, none⟩ : SelectionConfig Nat Nat) false
        [(Sum.inl 1, ⟨1, none⟩), (Sum.inl 2, ⟨2, none⟩)] [⟨3, none⟩] =
      (.ok (), [(Sum.inl 1, ⟨1, none⟩), (Sum.inl 2, ⟨2, none⟩), (Sum.inl 3, ⟨3, none⟩)],
       [⟨[⟨1, none⟩, ⟨2, none⟩], [⟨1, none⟩, ⟨2, none⟩, ⟨3, none⟩]⟩]) ∧
    SelectionSet.deselect (⟨true, none⟩ : SelectionConfig Nat Nat) false
        [(Sum.inl 1, ⟨1, none⟩), (Sum.inl 2, ⟨2, none⟩), (Sum.inl 3, ⟨3, none⟩)]
        [⟨2, none⟩] =
      (.ok (), [(Sum.inl 1, ⟨1, none⟩), (Sum.inl 3, ⟨3, none⟩)],
       [⟨[⟨1, none⟩, ⟨2, none⟩, ⟨3, none⟩], [⟨1, none⟩, ⟨3, none⟩]⟩]) :=
  order_preservation _ _ _ _ _ _ _ _ rfl rfl rfl rfl
    (by decide) (by decide) (by decide)

end SelectionModel

namespace SelectionModel

variable {T K : Type} [DecidableEq T] [DecidableEq K]

/-- C1 counterexample: with the diagnostic flag off, a single-mode set
reaches two entries after one `select` call passing two distinct values,
so the map does not always hold at most one entry. -/
theorem single_mode_at_most_one_counterexample :
    ¬ ((applyOps (⟨false, none⟩ : SelectionConfig Nat Nat) false []
        [SelOp.sel [⟨1, none⟩, ⟨2, none⟩]]).length ≤ 1) := by
  decide

/-- C1 (amended): with the diagnostic flag on, a single-mode set reached
from a map of at most one entry by any sequence of `select`/`deselect`
calls still holds at most one entry. -/
theorem single_mode_at_most_one_dev (cfg : SelectionConfig T K)
    (ops : List (SelOp T)) (hmul : cfg.multiple = false) :
    (applyOps cfg true [] ops).length ≤ 1 := by
  have hstep : ∀ (m : SelectionMap T K) (op : SelOp T),
      m.length ≤ 1 → (applyOp cfg true m op).length ≤ 1 := by
    intro m op hm
    cases op with
    | sel es =>
        by_cases hlen : 1 < es.length
        · have hG : SelectionSet.select cfg true m es =
              (.error .multipleNotAllowed, m, []) := by
            unfold SelectionSet.select
            rw [if_pos ⟨hmul, hlen, rfl⟩]
          simp [applyOp, hG, hm]
        · have hsnd : (SelectionSet.select cfg true m es).2.1 =
              (SelectionSet.selectLoop cfg true
                (if cfg.multiple = false then [] else m) es).2 := by
            unfold SelectionSet.select
            rw [if_neg (by tauto)]
            rcases hl : SelectionSet.selectLoop cfg true
              (if cfg.multiple = false then [] else m) es with ⟨r, mz⟩
            cases r <;> rfl
          simp only [applyOp]
          rw [hsnd, hmul]
          have hlb := selectLoop_snd_length cfg true es ([] : SelectionMap T K)
          simp only [List.length_nil, Nat.zero_add] at hlb
          show (SelectionSet.selectLoop cfg true [] es).2.length ≤ 1
          omega
    | desel es =>
        by_cases hlen : 1 < es.length
        · have hG : SelectionSet.deselect cfg true m es =
              (.error .multipleNotAllowed, m, []) := by
            unfold SelectionSet.deselect
            rw [if_pos ⟨hmul, hlen, rfl⟩]
          simp [applyOp, hG, hm]
        · have hsnd : (SelectionSet.deselect cfg true m es).2.1 =
              (SelectionSet.deselectLoop cfg true m es).2 := by
            unfold SelectionSet.deselect
            rw [if_neg (by tauto)]
            rcases hl : SelectionSet.deselectLoop cfg true m es with ⟨r, mz⟩
            cases r <;> rfl
          simp only [applyOp]
          rw [hsnd]
          exact le_trans (deselectLoop_snd_length cfg true es m) hm
  suffices h : ∀ (l : List (SelOp T)) (m : SelectionMap T K),
      m.length ≤ 1 → (applyOps cfg true m l).length ≤ 1 by
    exact h ops [] (by simp)
  intro l
  induction l with
  | nil =>
      intro m hm
      simpa [applyOps] using hm
  | cons op rest ih =>
      intro m hm
      exact ih (applyOp cfg true m op) (hstep m op hm)

/-- Witness for C1 (amended): a select of two entries (rejected), a select
of one entry and a deselect, in diagnostic mode. -/
theorem single_mode_at_most_one_dev_witness :
    (applyOps (⟨false, none⟩ : SelectionConfig Nat Nat) true []
      [SelOp.sel [⟨1, none⟩, ⟨2, none⟩], SelOp.sel [⟨3, none⟩],
       SelOp.desel [⟨3, none⟩]]).length ≤ 1 :=
  single_mode_at_most_one_dev _ _ rfl

end SelectionModel
